import Mathlib

/-!
# smartDNS `core/outbound/clients/remote.go`: the upstream exchanger

A shallow embedding of `RemoteClient.Exchange` and `RemoteClient.logAnswer`.

* Go strings are modelled by Lean `String`s.  The only bytes the code inspects
  (`@`, `:`, `[`, `]`) are ASCII, and no multi-byte UTF-8 sequence contains an
  ASCII byte, so splitting on characters agrees with Go's splitting on bytes.
* The network, the clock and the logger are external.  Every call the code
  makes to them is recorded, in order, in a trace of `Event`s; what the
  outside world answers is read from an `Env`, one per call of `Exchange`.
* A nil-pointer dereference is recorded in the `panicked` flag of the result.
-/

namespace SmartDNS

deriving instance DecidableEq for Except

/-! ## Go standard library: `strings.Split`, `net.SplitHostPort`, `net.JoinHostPort` -/

/-- Split a character list at every occurrence of `sep`; the result always has
one more piece than there are separators (so the empty list gives one empty piece). -/
def splitChars (sep : Char) : List Char → List (List Char)
  | [] => [[]]
  | c :: cs =>
    if c = sep then [] :: splitChars sep cs
    else
      match splitChars sep cs with
      | [] => [[c]]
      | p :: ps => (c :: p) :: ps

/-- Go `strings.Split(s, sep)` for a one-byte separator `sep`. -/
def strings.Split (s : String) (sep : Char) : List String :=
  (splitChars sep s.data).map String.mk

/-- Go `bytealg.IndexByteString`: position of the first `c`, if any. -/
def indexByte (c : Char) : List Char → Option Nat
  | [] => none
  | x :: xs => if x = c then some 0 else (indexByte c xs).map (· + 1)

/-- Go `bytealg.LastIndexByteString`: position of the last `c`, if any. -/
def lastIndexByte (c : Char) : List Char → Option Nat
  | [] => none
  | x :: xs =>
    match lastIndexByte c xs with
    | some i => some (i + 1)
    | none => if x = c then some 0 else none

/-- Go `(*net.AddrError).Error()`. -/
def addrError (addr why : String) : String :=
  if addr ≠ "" then "address " ++ addr ++ ": " ++ why else why

/-- Go `net.SplitHostPort(hostport)`: `.ok (host, port)` or `.error` with the
text of the `*net.AddrError`. -/
def net.SplitHostPort (hostport : String) : Except String (String × String) :=
  let hp := hostport.data
  let missingPort := "missing port in address"
  let tooManyColons := "too many colons in address"
  -- The port starts after the last colon.
  match lastIndexByte ':' hp with
  | none => .error (addrError hostport missingPort)
  | some i =>
    let finish (j k : Nat) (host : List Char) : Except String (String × String) :=
      if (indexByte '[' (hp.drop j)).isSome then
        .error (addrError hostport "unexpected '[' in address")
      else if (indexByte ']' (hp.drop k)).isSome then
        .error (addrError hostport "unexpected ']' in address")
      else .ok (String.mk host, String.mk (hp.drop (i + 1)))
    if hp.head? = some '[' then
      -- Expect the first ']' just before the last ':'.
      match indexByte ']' hp with
      | none => .error (addrError hostport "missing ']' in address")
      | some endIdx =>
        if endIdx + 1 = hp.length then .error (addrError hostport missingPort)
        else if endIdx + 1 = i then finish 1 (endIdx + 1) ((hp.take endIdx).drop 1)
        else if hp.get? (endIdx + 1) = some ':' then .error (addrError hostport tooManyColons)
        else .error (addrError hostport missingPort)
    else
      let host := hp.take i
      if (indexByte ':' host).isSome then .error (addrError hostport tooManyColons)
      else finish 0 0 host

/-- Go `net.JoinHostPort(host, port)`: a host with a colon is taken for a
literal IPv6 address and bracketed. -/
def net.JoinHostPort (host port : String) : String :=
  if (indexByte ':' host.data).isSome then "[" ++ host ++ "]:" ++ port
  else host ++ ":" ++ port

/-! ## Data model -/

/-- Modelled from the spec: the declaration of `common.DNSUpstream` is not among the
sources; these are the five fields `remote.go` reads (`Timeout` is a Go `int`,
in seconds). -/
structure DNSUpstream where
  Name : String
  Protocol : String
  Address : String
  SOCKS5Address : String
  Timeout : Int
  deriving DecidableEq, Repr

/-- A resource record of the external DNS codec; `remote.go` only calls its
`String()` method, whose result is `text`. -/
structure RR where
  text : String
  deriving DecidableEq, Repr

/-- Go `a.String()` on an answer record. -/
def RR.String (a : RR) : String := a.text

/-- The external codec's `dns.Msg`: `remote.go` reads only `Answer`; `payload`
stands for everything else in the message. -/
structure Msg where
  payload : Nat
  Answer : List RR
  deriving DecidableEq, Repr

/-- A connected transport (`net.Conn`), identified by a handle. -/
abbrev Conn := Nat

/-- Go `RemoteClient`.  Pointer fields that may be nil are `Option`s;
`dnsUpstream` holds the descriptor the pointer refers to.  `NewClient` stores
`q.Copy()`, which is never nil.  The cache handle is never dereferenced. -/
structure RemoteClient where
  responseMessage : Option Msg
  questionMessage : Msg
  dnsUpstream : Option DNSUpstream
  inboundIP : String
  cache : Nat
  deriving DecidableEq, Repr

/-- Go `NewClient(q, u, ip, cache)`. -/
def NewClient (q : Msg) (u : Option DNSUpstream) (ip : String) (cache : Nat) : RemoteClient :=
  { responseMessage := none, questionMessage := q, dnsUpstream := u, inboundIP := ip, cache := cache }

/-- Severity of a logrus call. -/
inductive Level
  | warn
  | debug
  deriving DecidableEq, Repr

/-- One call made by `Exchange` to the outside world, with its arguments. -/
inductive Event
  /-- `proxy.SOCKS5(network, address, nil, proxy.Direct)` -/
  | socks5 (network address : String)
  /-- `s.Dial(network, address)` on the dialer built for the given proxy -/
  | socksDial (proxyNetwork proxyAddress network address : String)
  /-- `tls.Dial(network, address, conf)` with `conf.ServerName` and `conf.InsecureSkipVerify` -/
  | tlsDial (network address serverName : String) (insecureSkipVerify : Bool)
  /-- `net.Dial(network, address)` -/
  | netDial (network address : String)
  /-- `conn.SetDeadline(now.Add(d))`, `now` the clock reading, `d` in nanoseconds -/
  | setDeadline (conn : Conn) (now d : Int)
  /-- `conn.SetReadDeadline(now.Add(d))` -/
  | setReadDeadline (conn : Conn) (now d : Int)
  /-- `conn.SetWriteDeadline(now.Add(d))` -/
  | setWriteDeadline (conn : Conn) (now d : Int)
  /-- `dc.WriteMsg(m)` -/
  | writeMsg (conn : Conn) (m : Msg)
  /-- `dc.ReadMsg()` -/
  | readMsg (conn : Conn)
  /-- `dc.Close()` -/
  | close (conn : Conn)
  /-- `log.Warnf` / `log.Debugf` with the formatted line -/
  | log (level : Level) (line : String)
  deriving DecidableEq, Repr

/-- What the outside world answers during one call of `Exchange`.  An error is
given by its text. -/
structure Env where
  /-- `proxy.SOCKS5(network, address, …)`: `some err` when it fails -/
  socks5 : String → String → Option String
  /-- `s.Dial(network, address)` through the proxy `(proxyNetwork, proxyAddress)` -/
  socksDial : String → String → String → String → Except String Conn
  /-- `tls.Dial(network, address, conf)` by `conf.ServerName` -/
  tlsDial : String → String → String → Except String Conn
  /-- `net.Dial(network, address)` -/
  netDial : String → String → Except String Conn
  /-- `dc.WriteMsg(m)`: `some err` when it fails -/
  writeMsg : Conn → Msg → Option String
  /-- `dc.ReadMsg()`: the pair `(message, err)` Go returns -/
  readMsg : Conn → Option Msg × Option String
  /-- the three successive readings of `time.Now()`, in nanoseconds -/
  now : Fin 3 → Int

/-! ## The code -/

/-- Wrap an integer to Go's signed 64-bit range. -/
def wrap64 (x : Int) : Int := (x + 2 ^ 63) % 2 ^ 64 - 2 ^ 63

/-- `time.Second`, in nanoseconds. -/
def Second : Int := 1000000000

/-- Line 88: `time.Duration(c.dnsUpstream.Timeout) * time.Second / 3` in
`int64` arithmetic (wrapping product, quotient truncated toward zero). -/
def dnsTimeout (timeout : Int) : Int :=
  Int.tdiv (wrap64 (wrap64 timeout * Second)) 3

/-- Outcome of transport selection (lines 46–86): the connection if one was
established, the descriptor as left behind, and the calls made. -/
structure Dialed where
  conn : Option Conn
  upstream : DNSUpstream
  trace : List Event
  deriving DecidableEq, Repr

/-- Lines 46–86 of `Exchange`: choose and establish the transport. -/
def connect (env : Env) (u : DNSUpstream) : Dialed :=
  if u.SOCKS5Address ≠ "" then
    -- If have sock5 proxy, dns will be transferred using socks5 proxy.
    match env.socks5 u.Protocol u.SOCKS5Address with
    | some err =>
      ⟨none, u, [.socks5 u.Protocol u.SOCKS5Address,
                 .log .warn ("Failed to connect to SOCKS5 proxy: " ++ err)]⟩
    | none =>
      match env.socksDial u.Protocol u.SOCKS5Address u.Protocol u.Address with
      | .error err =>
        ⟨none, u, [.socks5 u.Protocol u.SOCKS5Address,
                   .socksDial u.Protocol u.SOCKS5Address u.Protocol u.Address,
                   .log .warn ("Failed to connect to upstream via SOCKS5 proxy: " ++ err)]⟩
      | .ok conn =>
        ⟨some conn, u, [.socks5 u.Protocol u.SOCKS5Address,
                        .socksDial u.Protocol u.SOCKS5Address u.Protocol u.Address]⟩
  else if u.Protocol = "tcp-tls" then
    -- TCP-TLS DNS server
    let dial (u : DNSUpstream) (serverName : String) : Dialed :=
      match env.tlsDial "tcp" u.Address serverName with
      | .error err =>
        ⟨none, u, [.tlsDial "tcp" u.Address serverName false,
                   .log .warn ("Failed to connect to DNS-over-TLS upstream: " ++ err)]⟩
      | .ok conn => ⟨some conn, u, [.tlsDial "tcp" u.Address serverName false]⟩
    match strings.Split u.Address '@' with
    | [s0, s1] =>
      match net.SplitHostPort s0 with
      | .error err =>
        ⟨none, u, [.log .warn ("Failed to parse DNS-over-TLS upstream address: " ++ err)]⟩
      | .ok (servername, port) =>
        dial { u with Address := net.JoinHostPort s1 port } servername
    | _ => dial u ""
  else
    -- normal DNS server
    match env.netDial u.Protocol u.Address with
    | .error err =>
      ⟨none, u, [.netDial u.Protocol u.Address,
                 .log .warn ("Failed to connect to DNS upstream: " ++ err)]⟩
    | .ok conn => ⟨some conn, u, [.netDial u.Protocol u.Address]⟩

/-- Result of a method call: the returned message, the client afterwards
(with the descriptor its pointer refers to), the calls made to the outside
world in order, and whether the call ended in a nil-pointer panic. -/
structure Result where
  ret : Option Msg
  client : RemoteClient
  trace : List Event
  panicked : Bool
  deriving DecidableEq, Repr

/-- The log lines of `logAnswer` for a present response and a present
descriptor (lines 124–133). -/
def answerLines (name indicator : String) (answer : List RR) : List Event :=
  answer.map fun a =>
    .log .debug ("Answer from " ++ (if indicator ≠ "" then indicator else name) ++ ": " ++ a.String)

/-- Go `(c *RemoteClient) logAnswer(indicator)`: one debug line per answer
record.  A nil `responseMessage` panics at once; a nil descriptor panics at the
first record when no indicator is given. -/
def logAnswer (c : RemoteClient) (indicator : String) : Result :=
  match c.responseMessage with
  | none => ⟨none, c, [], true⟩
  | some r =>
    match c.dnsUpstream with
    | some u => ⟨none, c, answerLines u.Name indicator r.Answer, false⟩
    | none =>
      if indicator ≠ "" then ⟨none, c, answerLines "" indicator r.Answer, false⟩
      else ⟨none, c, [], !r.Answer.isEmpty⟩

/-- Go `(c *RemoteClient) Exchange(isLog)`. -/
def Exchange (env : Env) (c : RemoteClient) (isLog : Bool) : Result :=
  match c.responseMessage with
  | some r => ⟨some r, c, [], false⟩
  | none =>
    match c.dnsUpstream with
    | none => ⟨none, c, [], true⟩
    | some u =>
      let d := connect env u
      let c := { c with dnsUpstream := some d.upstream }
      match d.conn with
      | none => ⟨none, c, d.trace, false⟩
      | some conn =>
        -- Time unit is second
        let budget := dnsTimeout d.upstream.Timeout
        let deadlines : List Event :=
          [.setDeadline conn (env.now 0) budget,
           .setReadDeadline conn (env.now 1) budget,
           .setWriteDeadline conn (env.now 2) budget]
        -- `defer dc.Close()`: every return below ends with the close
        match env.writeMsg conn c.questionMessage with
        | some _ =>
          ⟨none, c, d.trace ++ deadlines ++
            [.writeMsg conn c.questionMessage,
             .log .warn (d.upstream.Name ++ " Fail: Send question message failed"),
             .close conn], false⟩
        | none =>
          match env.readMsg conn with
          | (_, some err) =>
            ⟨none, c, d.trace ++ deadlines ++
              [.writeMsg conn c.questionMessage, .readMsg conn,
               .log .debug (d.upstream.Name ++ " Fail: " ++ err),
               .close conn], false⟩
          | (none, none) =>
            ⟨none, c, d.trace ++ deadlines ++
              [.writeMsg conn c.questionMessage, .readMsg conn,
               .log .debug "Fail: Response message returned nil, maybe timeout? Please check your query or DNS configuration",
               .close conn], false⟩
          | (some temp, none) =>
            let c := { c with responseMessage := some temp }
            let logged := if isLog then (logAnswer c "").trace else []
            ⟨c.responseMessage, c, d.trace ++ deadlines ++
              [.writeMsg conn c.questionMessage, .readMsg conn] ++ logged ++ [.close conn], false⟩

/-! ## Observations on traces, and sample inputs -/

/-- The transport-establishment calls: SOCKS5 set-up and the three dials. -/
def Event.isTransport : Event → Bool
  | .socks5 .. | .socksDial .. | .tlsDial .. | .netDial .. => true
  | _ => false

/-- The dial attempts (the calls that open a connection). -/
def Event.isDial : Event → Bool
  | .socksDial .. | .tlsDial .. | .netDial .. => true
  | _ => false

/-- The three deadline calls. -/
def Event.isDeadline : Event → Bool
  | .setDeadline .. | .setReadDeadline .. | .setWriteDeadline .. => true
  | _ => false

/-- The log calls. -/
def Event.isLog : Event → Bool
  | .log .. => true
  | _ => false

/-- The transport-establishment calls of a trace, in order. -/
def transportEvents (t : List Event) : List Event := t.filter Event.isTransport

/-- Number of dial attempts in a trace. -/
def dialCount (t : List Event) : Nat := (t.filter Event.isDial).length

/-- The `(address, ServerName)` pairs handed to `tls.Dial` in a trace. -/
def tlsDials : List Event → List (String × String)
  | [] => []
  | .tlsDial _ address serverName _ :: t => (address, serverName) :: tlsDials t
  | _ :: t => tlsDials t

/-- The connections closed in a trace, in order. -/
def closes : List Event → List Conn
  | [] => []
  | .close conn :: t => conn :: closes t
  | _ :: t => closes t

/-- Successive calls of `Exchange` on one instance, each with its own logging
flag and its own answers from the outside world. -/
def runCalls (c : RemoteClient) : List (Env × Bool) → List Result
  | [] => []
  | (env, isLog) :: rest =>
    let r := Exchange env c isLog
    r :: runCalls r.client rest

/-- A world in which every step succeeds: each dial yields connection `7`, the
write succeeds and the read yields a message with two answer records. -/
def envUp : Env where
  socks5 := fun _ _ => none
  socksDial := fun _ _ _ _ => .ok 7
  tlsDial := fun _ _ _ => .ok 7
  netDial := fun _ _ => .ok 7
  writeMsg := fun _ _ => none
  readMsg := fun _ => (some ⟨1, [⟨"example.com. 60 IN A 192.0.2.1"⟩, ⟨"example.com. 60 IN A 192.0.2.2"⟩]⟩, none)
  now := fun _ => 0

/-- A world in which every dial is refused. -/
def envDown : Env where
  socks5 := fun _ _ => none
  socksDial := fun _ _ _ _ => .error "connection refused"
  tlsDial := fun _ _ _ => .error "connection refused"
  netDial := fun _ _ => .error "connection refused"
  writeMsg := fun _ _ => some "broken pipe"
  readMsg := fun _ => (none, some "i/o timeout")
  now := fun _ => 0

/-- A fresh client, built by `NewClient`, for an upstream named `up` with the
given protocol, address, SOCKS5 address and timeout. -/
def sampleClient (protocol address socks : String) (timeout : Int) : RemoteClient :=
  NewClient ⟨0, []⟩ (some ⟨"up", protocol, address, socks, timeout⟩) "127.0.0.1" 0

/-! ## Facts about the string helpers -/

theorem indexByte_eq_none {c : Char} {l : List Char} : indexByte c l = none ↔ c ∉ l := by
  induction l with
  | nil => simp [indexByte]
  | cons x xs ih =>
    by_cases h : x = c
    · simp [indexByte, h]
    · simp [indexByte, h, ih, Ne.symm h]

theorem indexByte_isSome {c : Char} {l : List Char} : (indexByte c l).isSome = true ↔ c ∈ l := by
  rw [← not_iff_not, ← indexByte_eq_none]
  cases indexByte c l <;> simp

theorem lastIndexByte_eq_none {c : Char} {l : List Char} : lastIndexByte c l = none ↔ c ∉ l := by
  induction l with
  | nil => simp [lastIndexByte]
  | cons x xs ih =>
    by_cases hm : c ∈ xs
    · have : lastIndexByte c xs ≠ none := fun h => (ih.mp h) hm
      cases h : lastIndexByte c xs with
      | none => exact absurd h this
      | some i => simp [lastIndexByte, h, hm]
    · have h := ih.mpr hm
      by_cases hx : x = c
      · simp [lastIndexByte, h, hx]
      · simp [lastIndexByte, h, hx, hm, Ne.symm hx]

theorem lastIndexByte_append {c : Char} (a b : List Char) (hb : c ∉ b) :
    lastIndexByte c (a ++ c :: b) = some a.length := by
  induction a with
  | nil => simp [lastIndexByte, lastIndexByte_eq_none.mpr hb]
  | cons x xs ih => simp [lastIndexByte, ih]

theorem splitChars_ne_nil (sep : Char) (l : List Char) : splitChars sep l ≠ [] := by
  cases l with
  | nil => simp [splitChars]
  | cons c cs =>
    unfold splitChars
    split
    · simp
    · split <;> simp

theorem splitChars_of_not_mem {sep : Char} {l : List Char} (h : sep ∉ l) :
    splitChars sep l = [l] := by
  induction l with
  | nil => rfl
  | cons c cs ih =>
    simp only [List.mem_cons, not_or] at h
    simp [splitChars, Ne.symm h.1, ih h.2]

theorem splitChars_append {sep : Char} (a b : List Char) (h : sep ∉ a) :
    splitChars sep (a ++ sep :: b) = a :: splitChars sep b := by
  induction a with
  | nil => simp [splitChars]
  | cons c cs ih =>
    simp only [List.mem_cons, not_or] at h
    simp [splitChars, Ne.symm h.1, ih h.2]

theorem splitChars_length (sep : Char) (l : List Char) :
    (splitChars sep l).length = l.count sep + 1 := by
  induction l with
  | nil => rfl
  | cons c cs ih =>
    by_cases h : c = sep
    · simp [splitChars, h, ih]
    · have hne := splitChars_ne_nil sep cs
      cases hs : splitChars sep cs with
      | nil => exact absurd hs hne
      | cons p ps =>
        rw [hs] at ih
        simp [splitChars, h, hs, List.count_cons] at ih ⊢
        omega

theorem splitChars_head (sep : Char) (l : List Char) :
    (splitChars sep l).head? = some (l.takeWhile (· ≠ sep)) := by
  induction l with
  | nil => rfl
  | cons c cs ih =>
    by_cases h : c = sep
    · simp [splitChars, h]
    · cases hs : splitChars sep cs with
      | nil => exact absurd hs (splitChars_ne_nil sep cs)
      | cons p ps =>
        rw [hs] at ih
        simp at ih
        simp [splitChars, h, hs, List.takeWhile_cons, ih]

theorem splitChars_not_mem (sep : Char) (l : List Char) :
    ∀ p ∈ splitChars sep l, sep ∉ p := by
  induction l with
  | nil => simp [splitChars]
  | cons c cs ih =>
    by_cases h : c = sep
    · simp only [splitChars, h, if_true]
      intro p hp
      rcases List.mem_cons.mp hp with rfl | hp
      · simp
      · exact ih p hp
    · cases hs : splitChars sep cs with
      | nil => exact absurd hs (splitChars_ne_nil sep cs)
      | cons q qs =>
        rw [hs] at ih
        simp only [splitChars, h, if_false, hs]
        intro p hp
        rcases List.mem_cons.mp hp with rfl | hp
        · have := ih q (List.mem_cons_self _ _)
          simp [this, Ne.symm h]
        · exact ih p (List.mem_cons_of_mem _ hp)

theorem SplitHostPort_of_parts (h p : List Char)
    (h1 : ':' ∉ h) (h2 : '[' ∉ h) (h3 : ']' ∉ h)
    (p1 : ':' ∉ p) (p2 : '[' ∉ p) (p3 : ']' ∉ p) :
    net.SplitHostPort (String.mk (h ++ ':' :: p)) = .ok (String.mk h, String.mk p) := by
  have hhead : (h ++ ':' :: p).head? ≠ some '[' := by
    cases h with
    | nil => simp
    | cons x xs =>
      simp only [List.mem_cons, not_or] at h2
      simpa using Ne.symm h2.1
  have hl : ('[' : Char) ∉ h ++ ':' :: p := by simp [h2, p2]
  have hr : (']' : Char) ∉ h ++ ':' :: p := by simp [h3, p3]
  simp only [net.SplitHostPort, lastIndexByte_append h p p1, hhead, if_false, List.drop_zero,
    List.take_left', indexByte_eq_none.mpr h1, indexByte_eq_none.mpr hl,
    indexByte_eq_none.mpr hr, Option.isSome_none, Bool.false_eq_true]
  simp

theorem SplitHostPort_port_mem {s host port : String}
    (h : net.SplitHostPort s = .ok (host, port)) : ∀ ch ∈ port.data, ch ∈ s.data := by
  have key : ∀ r : Except String (String × String), r = .ok (host, port) →
      (∀ x, r = .ok x → ∃ i, x.2.data = s.data.drop i) → ∀ ch ∈ port.data, ch ∈ s.data := by
    intro r hr hx ch hch
    obtain ⟨i, hi⟩ := hx _ hr
    simp only at hi
    rw [hi] at hch
    exact List.mem_of_mem_drop hch
  refine key _ h ?_
  intro x hx
  unfold net.SplitHostPort at hx
  simp only at hx
  split at hx
  · simp at hx
  · rename_i i _
    refine ⟨i + 1, ?_⟩
    repeat' split at hx
    all_goals first
      | (simp at hx; done)
      | (simp only [Except.ok.injEq] at hx; rw [← hx])

/-- The string helpers on sample inputs, as the Go functions they stand for behave. -/
theorem stdlib_samples :
    strings.Split "proxyHost:1111@realHost:2222" '@' = ["proxyHost:1111", "realHost:2222"] ∧
    strings.Split "" '@' = [""] ∧
    strings.Split "a@b@c" '@' = ["a", "b", "c"] ∧
    net.SplitHostPort "proxyHost:1111" = .ok ("proxyHost", "1111") ∧
    net.SplitHostPort "[::1]:53" = .ok ("::1", "53") ∧
    net.SplitHostPort "a" = .error "address a: missing port in address" ∧
    net.SplitHostPort "a:b:53" = .error "address a:b:53: too many colons in address" ∧
    net.SplitHostPort "[::1]" = .error "address [::1]: missing port in address" ∧
    net.JoinHostPort "realHost" "1111" = "realHost:1111" ∧
    net.JoinHostPort "realHost:2222" "1111" = "[realHost:2222]:1111" := by
  decide

/-! ## Facts about `connect` and `Exchange` -/

theorem answerLines_isLog (name indicator : String) (answer : List RR) :
    ∀ e ∈ answerLines name indicator answer, ∃ line, e = .log .debug line := by
  intro e he
  simp only [answerLines, List.mem_map] at he
  obtain ⟨a, _, rfl⟩ := he
  exact ⟨_, rfl⟩

/-- On the slow path the trace of `Exchange` is the trace of `connect` followed by
the deadline, write, read, log and close calls, none of which is a transport
call; nothing follows when no connection was established. -/
theorem Exchange_trace_split (env : Env) (c : RemoteClient) (isLog : Bool) (u : DNSUpstream)
    (hresp : c.responseMessage = none) (hu : c.dnsUpstream = some u) :
    ∃ rest, (Exchange env c isLog).trace = (connect env u).trace ++ rest ∧
      (∀ e ∈ rest, e.isTransport = false) ∧ ((connect env u).conn = none → rest = []) := by
  simp only [Exchange, hresp, hu]
  cases hc : (connect env u).conn with
  | none => exact ⟨[], by simp, by simp, by simp⟩
  | some conn =>
    simp only
    cases hw : env.writeMsg conn c.questionMessage with
    | some e =>
      refine ⟨_, by simp only [List.append_assoc]; rfl, ?_, by simp⟩
      intro e he
      simp at he
      rcases he with rfl | rfl | rfl | rfl | rfl | rfl <;> rfl
    | none =>
      simp only
      rcases hr : env.readMsg conn with ⟨m, err⟩
      cases err with
      | some err =>
        refine ⟨_, by simp only [List.append_assoc]; rfl, ?_, by simp⟩
        intro e he
        simp at he
        rcases he with rfl | rfl | rfl | rfl | rfl | rfl | rfl <;> rfl
      | none =>
        cases m with
        | none =>
          refine ⟨_, by simp only [List.append_assoc]; rfl, ?_, by simp⟩
          intro e he
          simp at he
          rcases he with rfl | rfl | rfl | rfl | rfl | rfl | rfl <;> rfl
        | some m =>
          refine ⟨_, by simp only [List.append_assoc]; rfl, ?_, by simp⟩
          intro e he
          simp only [List.mem_append, List.mem_cons, List.mem_singleton, List.not_mem_nil,
            or_false] at he
          rcases he with (rfl | rfl | rfl) | (rfl | rfl) | he | rfl
          any_goals rfl
          cases isLog with
          | false => simp at he
          | true =>
            simp only [logAnswer, if_true] at he
            obtain ⟨line, rfl⟩ := answerLines_isLog _ _ _ e he
            rfl

theorem tlsDials_append (a b : List Event) : tlsDials (a ++ b) = tlsDials a ++ tlsDials b := by
  induction a with
  | nil => rfl
  | cons e t ih => cases e <;> simp [tlsDials, ih]

theorem tlsDials_of_no_transport {t : List Event} (h : ∀ e ∈ t, e.isTransport = false) :
    tlsDials t = [] := by
  induction t with
  | nil => rfl
  | cons e t ih =>
    have he := h e (List.mem_cons_self _ _)
    have ht := ih (fun x hx => h x (List.mem_cons_of_mem _ hx))
    cases e <;> simp_all [tlsDials, Event.isTransport]

theorem Exchange_tlsDials (env : Env) (c : RemoteClient) (isLog : Bool) (u : DNSUpstream)
    (hresp : c.responseMessage = none) (hu : c.dnsUpstream = some u) :
    tlsDials (Exchange env c isLog).trace = tlsDials (connect env u).trace := by
  obtain ⟨rest, h1, h2, _⟩ := Exchange_trace_split env c isLog u hresp hu
  rw [h1, tlsDials_append, tlsDials_of_no_transport h2, List.append_nil]

/-- The TLS branch when the address splits in two and the first part parses. -/
theorem connect_tls_split (env : Env) (u : DNSUpstream) (s0 s1 sn port : String)
    (hs : u.SOCKS5Address = "") (hp : u.Protocol = "tcp-tls")
    (hsplit : strings.Split u.Address '@' = [s0, s1])
    (hparse : net.SplitHostPort s0 = .ok (sn, port)) :
    (connect env u).upstream = { u with Address := net.JoinHostPort s1 port } ∧
    tlsDials (connect env u).trace = [(net.JoinHostPort s1 port, sn)] ∧
    transportEvents (connect env u).trace = [.tlsDial "tcp" (net.JoinHostPort s1 port) sn false] := by
  simp only [connect, hs, hp, hsplit, hparse, ne_eq, not_true_eq_false, if_false, if_true]
  cases env.tlsDial "tcp" (net.JoinHostPort s1 port) sn <;>
    simp [tlsDials, transportEvents, Event.isTransport]

/-- The TLS branch when the address does not split in exactly two. -/
theorem connect_tls_whole (env : Env) (u : DNSUpstream)
    (hs : u.SOCKS5Address = "") (hp : u.Protocol = "tcp-tls")
    (hsplit : (strings.Split u.Address '@').length ≠ 2) :
    (connect env u).upstream = u ∧
    tlsDials (connect env u).trace = [(u.Address, "")] ∧
    transportEvents (connect env u).trace = [.tlsDial "tcp" u.Address "" false] := by
  simp only [connect, hs, hp, ne_eq, not_true_eq_false, if_false, if_true]
  split
  · rename_i h; simp [h] at hsplit
  · cases env.tlsDial "tcp" u.Address "" <;>
      simp [tlsDials, transportEvents, Event.isTransport]

/-- The TLS branch when the first part of a two-part address does not parse. -/
theorem connect_tls_bad (env : Env) (u : DNSUpstream) (s0 s1 err : String)
    (hs : u.SOCKS5Address = "") (hp : u.Protocol = "tcp-tls")
    (hsplit : strings.Split u.Address '@' = [s0, s1])
    (hparse : net.SplitHostPort s0 = .error err) :
    connect env u =
      ⟨none, u, [.log .warn ("Failed to parse DNS-over-TLS upstream address: " ++ err)]⟩ := by
  simp only [connect, hs, hp, hsplit, hparse, ne_eq, not_true_eq_false, if_false, if_true]

theorem isDigit_ne {ch : Char} (h : ch.isDigit = true) :
    ch ≠ ':' ∧ ch ≠ '@' ∧ ch ≠ '[' ∧ ch ≠ ']' := by
  refine ⟨?_, ?_, ?_, ?_⟩ <;> (rintro rfl; revert h; decide)

theorem transportEvents_of_no_transport {t : List Event}
    (h : ∀ e ∈ t, e.isTransport = false) : transportEvents t = [] := by
  simp only [transportEvents, List.filter_eq_nil_iff]
  intro e he
  simp [h e he]

theorem dialCount_of_no_transport {t : List Event}
    (h : ∀ e ∈ t, e.isTransport = false) : dialCount t = 0 := by
  simp only [dialCount, List.length_eq_zero, List.filter_eq_nil_iff]
  intro e he
  have := h e he
  cases e <;> simp_all [Event.isTransport, Event.isDial]

theorem Exchange_transportEvents (env : Env) (c : RemoteClient) (isLog : Bool) (u : DNSUpstream)
    (hresp : c.responseMessage = none) (hu : c.dnsUpstream = some u) :
    transportEvents (Exchange env c isLog).trace = transportEvents (connect env u).trace := by
  obtain ⟨rest, h1, h2, _⟩ := Exchange_trace_split env c isLog u hresp hu
  have := transportEvents_of_no_transport h2
  simp only [transportEvents] at this ⊢
  rw [h1, List.filter_append, this, List.append_nil]

theorem Exchange_dialCount (env : Env) (c : RemoteClient) (isLog : Bool) (u : DNSUpstream)
    (hresp : c.responseMessage = none) (hu : c.dnsUpstream = some u) :
    dialCount (Exchange env c isLog).trace = dialCount (connect env u).trace := by
  obtain ⟨rest, h1, h2, _⟩ := Exchange_trace_split env c isLog u hresp hu
  have := dialCount_of_no_transport h2
  simp only [dialCount] at this ⊢
  rw [h1, List.filter_append, List.length_append, this, Nat.add_zero]

/-- On the slow path the descriptor left behind is the one `connect` leaves. -/
theorem Exchange_client_upstream (env : Env) (c : RemoteClient) (isLog : Bool) (u : DNSUpstream)
    (hresp : c.responseMessage = none) (hu : c.dnsUpstream = some u) :
    (Exchange env c isLog).client.dnsUpstream = some (connect env u).upstream := by
  simp only [Exchange, hresp, hu]
  repeat' split
  all_goals rfl

theorem connect_dialCount_le (env : Env) (u : DNSUpstream) :
    dialCount (connect env u).trace ≤ 1 := by
  unfold connect
  repeat' split
  all_goals first
    | (simp [dialCount, Event.isDial]; done)
    | (simp only []; split <;> simp [dialCount, Event.isDial])

/-- The SOCKS5 branch. -/
theorem connect_socks (env : Env) (u : DNSUpstream) (hs : u.SOCKS5Address ≠ "") :
    (connect env u).upstream = u ∧
    transportEvents (connect env u).trace =
      if (env.socks5 u.Protocol u.SOCKS5Address).isSome then
        [.socks5 u.Protocol u.SOCKS5Address]
      else
        [.socks5 u.Protocol u.SOCKS5Address,
         .socksDial u.Protocol u.SOCKS5Address u.Protocol u.Address] := by
  simp only [connect, hs, ne_eq, not_false_eq_true, if_true]
  cases env.socks5 u.Protocol u.SOCKS5Address with
  | some e => simp [transportEvents, Event.isTransport]
  | none =>
    cases env.socksDial u.Protocol u.SOCKS5Address u.Protocol u.Address <;>
      simp [transportEvents, Event.isTransport]

/-- The plain branch. -/
theorem connect_plain (env : Env) (u : DNSUpstream)
    (hs : u.SOCKS5Address = "") (hp : u.Protocol ≠ "tcp-tls") :
    (connect env u).upstream = u ∧
    transportEvents (connect env u).trace = [.netDial u.Protocol u.Address] := by
  simp only [connect, hs, hp, ne_eq, not_true_eq_false, if_false]
  cases env.netDial u.Protocol u.Address <;> simp [transportEvents, Event.isTransport]

/-- The fast path: a stored response is returned at once. -/
theorem Exchange_fast (env : Env) (c : RemoteClient) (isLog : Bool) (r : Msg)
    (h : c.responseMessage = some r) : Exchange env c isLog = ⟨some r, c, [], false⟩ := by
  simp only [Exchange, h]

/-- After every call the stored response is what the call returned. -/
theorem Exchange_stored (env : Env) (c : RemoteClient) (isLog : Bool) :
    (Exchange env c isLog).client.responseMessage = (Exchange env c isLog).ret := by
  cases hresp : c.responseMessage with
  | some r => simp [Exchange, hresp]
  | none =>
    cases hu : c.dnsUpstream with
    | none => simp [Exchange, hresp, hu]
    | some u =>
      simp only [Exchange, hresp, hu]
      cases (connect env u).conn with
      | none => rfl
      | some conn =>
        simp only
        cases env.writeMsg conn c.questionMessage with
        | some e => rfl
        | none =>
          simp only
          rcases env.readMsg conn with ⟨m, err⟩
          cases m <;> cases err <;> rfl

theorem Exchange_dialCount_le (env : Env) (c : RemoteClient) (isLog : Bool) :
    dialCount (Exchange env c isLog).trace ≤ 1 := by
  cases hresp : c.responseMessage with
  | some r => simp [Exchange_fast env c isLog r hresp, dialCount]
  | none =>
    cases hu : c.dnsUpstream with
    | none => simp [Exchange, hresp, hu, dialCount]
    | some u =>
      rw [Exchange_dialCount env c isLog u hresp hu]
      exact connect_dialCount_le env u

/-- Once a response is stored, every further call is the fast path. -/
theorem runCalls_memo (c : RemoteClient) (r : Msg) (h : c.responseMessage = some r)
    (calls : List (Env × Bool)) :
    runCalls c calls = List.replicate calls.length ⟨some r, c, [], false⟩ := by
  induction calls with
  | nil => rfl
  | cons x rest ih =>
    obtain ⟨env, isLog⟩ := x
    simp only [runCalls, Exchange_fast env c isLog r h, ih, List.length_cons, List.replicate_succ]

/-- The calls `connect` makes are transport calls and warnings only. -/
theorem connect_trace_kinds (env : Env) (u : DNSUpstream) :
    ∀ e ∈ (connect env u).trace, e.isTransport = true ∨ ∃ line, e = .log .warn line := by
  unfold connect
  repeat' split
  all_goals try simp only []
  all_goals try split
  all_goals
    intro e he
    simp only [List.mem_cons, List.mem_singleton, List.not_mem_nil, or_false] at he
    rcases he with rfl | rfl | rfl | rfl <;> simp [Event.isTransport]

/-- When a connection was established, `connect` logged nothing. -/
theorem connect_trace_of_conn (env : Env) (u : DNSUpstream) (conn : Conn)
    (h : (connect env u).conn = some conn) :
    ∀ e ∈ (connect env u).trace, e.isTransport = true := by
  revert h
  unfold connect
  repeat' split
  all_goals try simp only []
  all_goals try split
  all_goals
    intro h e he
    simp only [List.mem_cons, List.mem_singleton, List.not_mem_nil, or_false] at he
    first
      | (simp at h; done)
      | (rcases he with rfl | rfl | rfl | rfl <;> simp [Event.isTransport])

/-- The descriptor fields other than `Address` are never written. -/
theorem connect_frame (env : Env) (u : DNSUpstream) :
    (connect env u).upstream.Name = u.Name ∧
    (connect env u).upstream.Protocol = u.Protocol ∧
    (connect env u).upstream.SOCKS5Address = u.SOCKS5Address ∧
    (connect env u).upstream.Timeout = u.Timeout := by
  unfold connect
  repeat' split
  all_goals first
    | (simp; done)
    | (simp only []; split <;> simp)

/-- Shape of the trace once a connection is established: the calls of `connect`,
the three deadline calls with the budget as offset, then write, read and log
calls, then exactly one close. -/
theorem Exchange_trace_shape (env : Env) (c : RemoteClient) (isLog : Bool) (u : DNSUpstream)
    (conn : Conn) (hresp : c.responseMessage = none) (hu : c.dnsUpstream = some u)
    (hconn : (connect env u).conn = some conn) :
    ∃ mid, (Exchange env c isLog).trace =
        (connect env u).trace ++
          [.setDeadline conn (env.now 0) (dnsTimeout u.Timeout),
           .setReadDeadline conn (env.now 1) (dnsTimeout u.Timeout),
           .setWriteDeadline conn (env.now 2) (dnsTimeout u.Timeout)] ++ mid ++ [.close conn] ∧
      ∀ e ∈ mid, (∃ m, e = .writeMsg conn m) ∨ e = .readMsg conn ∨ ∃ lv line, e = .log lv line := by
  simp only [Exchange, hresp, hu, hconn, (connect_frame env u).2.2.2]
  cases env.writeMsg conn c.questionMessage with
  | some err =>
    refine ⟨[.writeMsg conn c.questionMessage,
      .log .warn ((connect env u).upstream.Name ++ " Fail: Send question message failed")],
      by simp, ?_⟩
    intro e he
    simp at he
    rcases he with rfl | rfl <;> simp
  | none =>
    simp only
    rcases env.readMsg conn with ⟨m, err⟩
    cases m <;> cases err
    · refine ⟨[.writeMsg conn c.questionMessage, .readMsg conn, .log .debug
        "Fail: Response message returned nil, maybe timeout? Please check your query or DNS configuration"],
        by simp, ?_⟩
      intro e he
      simp at he
      rcases he with rfl | rfl | rfl <;> simp
    · rename_i err
      refine ⟨[.writeMsg conn c.questionMessage, .readMsg conn,
        .log .debug ((connect env u).upstream.Name ++ " Fail: " ++ err)], by simp, ?_⟩
      intro e he
      simp at he
      rcases he with rfl | rfl | rfl <;> simp
    · rename_i m
      refine ⟨[.writeMsg conn c.questionMessage, .readMsg conn] ++
        (if isLog then answerLines (connect env u).upstream.Name "" m.Answer else []), ?_, ?_⟩
      · cases isLog <;> simp [logAnswer]
      · intro e he
        simp only [List.mem_append, List.mem_cons, List.mem_singleton, List.not_mem_nil,
          or_false] at he
        rcases he with (rfl | rfl) | he
        · simp
        · simp
        · cases isLog with
          | false => simp at he
          | true =>
            simp only [if_true] at he
            obtain ⟨line, rfl⟩ := answerLines_isLog _ _ _ e he
            simp
    · rename_i m err
      refine ⟨[.writeMsg conn c.questionMessage, .readMsg conn,
        .log .debug ((connect env u).upstream.Name ++ " Fail: " ++ err)], by simp, ?_⟩
      intro e he
      simp at he
      rcases he with rfl | rfl | rfl <;> simp

theorem wrap64_of_range {x : Int} (h1 : -(2 ^ 63) ≤ x) (h2 : x < 2 ^ 63) : wrap64 x = x := by
  unfold wrap64
  rw [Int.emod_eq_of_lt (by omega) (by omega)]
  omega

theorem closes_append (a b : List Event) : closes (a ++ b) = closes a ++ closes b := by
  induction a with
  | nil => rfl
  | cons e t ih => cases e <;> simp [closes, ih]

theorem closes_of_transport {t : List Event}
    (h : ∀ e ∈ t, e.isTransport = true ∨ ∃ line, e = .log .warn line) : closes t = [] := by
  induction t with
  | nil => rfl
  | cons e t ih =>
    have he := h e (List.mem_cons_self _ _)
    have ht := ih (fun x hx => h x (List.mem_cons_of_mem _ hx))
    cases e <;> simp_all [closes, Event.isTransport]

theorem closes_of_mid {conn : Conn} {t : List Event}
    (h : ∀ e ∈ t, (∃ m, e = .writeMsg conn m) ∨ e = .readMsg conn ∨ ∃ lv line, e = .log lv line) :
    closes t = [] := by
  induction t with
  | nil => rfl
  | cons e t ih =>
    have he := h e (List.mem_cons_self _ _)
    have ht := ih (fun x hx => h x (List.mem_cons_of_mem _ hx))
    cases e <;> simp_all [closes]

/-- A present return means that dial, write and read all succeeded. -/
theorem Exchange_ret_some_iff (env : Env) (c : RemoteClient) (isLog : Bool) (u : DNSUpstream)
    (hresp : c.responseMessage = none) (hu : c.dnsUpstream = some u) (m : Msg) :
    (Exchange env c isLog).ret = some m ↔
      ∃ conn, (connect env u).conn = some conn ∧
        env.writeMsg conn c.questionMessage = none ∧ env.readMsg conn = (some m, none) := by
  simp only [Exchange, hresp, hu]
  cases (connect env u).conn with
  | none => simp
  | some conn =>
    simp only [Option.some.injEq, exists_eq_left']
    cases env.writeMsg conn c.questionMessage with
    | some e => simp
    | none =>
      simp only
      rcases env.readMsg conn with ⟨m', err⟩
      cases m' <;> cases err <;> simp

/-- The trace of a successful exchange. -/
theorem Exchange_success_trace (env : Env) (c : RemoteClient) (isLog : Bool) (u : DNSUpstream)
    (conn : Conn) (m : Msg) (hresp : c.responseMessage = none) (hu : c.dnsUpstream = some u)
    (hconn : (connect env u).conn = some conn)
    (hw : env.writeMsg conn c.questionMessage = none) (hr : env.readMsg conn = (some m, none)) :
    (Exchange env c isLog).trace =
      (connect env u).trace ++
        [.setDeadline conn (env.now 0) (dnsTimeout u.Timeout),
         .setReadDeadline conn (env.now 1) (dnsTimeout u.Timeout),
         .setWriteDeadline conn (env.now 2) (dnsTimeout u.Timeout)] ++
        [.writeMsg conn c.questionMessage, .readMsg conn] ++
        (if isLog then answerLines u.Name "" m.Answer else []) ++ [.close conn] ∧
    (Exchange env c isLog).client =
      { c with responseMessage := some m, dnsUpstream := some (connect env u).upstream } := by
  simp only [Exchange, hresp, hu, hconn, hw, hr, (connect_frame env u).2.2.2,
    (connect_frame env u).1]
  cases isLog <;> simp [logAnswer, (connect_frame env u).1]

theorem Split_part_no_sep {a s : String} {sep : Char} (h : s ∈ strings.Split a sep) :
    sep ∉ s.data := by
  simp only [strings.Split, List.mem_map] at h
  obtain ⟨p, hp, rfl⟩ := h
  exact splitChars_not_mem sep a.data p hp

/-- Outside the one rewriting case, `connect` leaves the address alone. -/
theorem connect_address (env : Env) (u : DNSUpstream)
    (h : ¬ (u.SOCKS5Address = "" ∧ u.Protocol = "tcp-tls" ∧ u.Address.data.count '@' = 1 ∧
      ∃ host port, net.SplitHostPort (String.mk (u.Address.data.takeWhile (· ≠ '@')))
        = .ok (host, port))) :
    (connect env u).upstream.Address = u.Address := by
  by_cases hs : u.SOCKS5Address = ""
  · by_cases hp : u.Protocol = "tcp-tls"
    · by_cases hlen : (strings.Split u.Address '@').length = 2
      · obtain ⟨s0, s1, hsplit⟩ := List.length_eq_two.mp hlen
        cases hparse : net.SplitHostPort s0 with
        | error err => rw [connect_tls_bad env u s0 s1 err hs hp hsplit hparse]
        | ok hp' =>
          exfalso
          apply h
          refine ⟨hs, hp, ?_, hp'.1, hp'.2, ?_⟩
          · have := splitChars_length '@' u.Address.data
            simp only [strings.Split, List.length_map] at hlen
            omega
          · have hh := splitChars_head '@' u.Address.data
            simp only [strings.Split] at hsplit
            cases hsc : splitChars '@' u.Address.data with
            | nil => simp [hsc] at hsplit
            | cons a rest =>
              rw [hsc] at hh hsplit
              simp only [List.head?_cons, Option.some.injEq] at hh
              simp only [List.map_cons, List.cons.injEq] at hsplit
              rw [← hh, hsplit.1]
              exact hparse
      · rw [(connect_tls_whole env u hs hp hlen).1]
    · rw [(connect_plain env u hs hp).1]
  · rw [(connect_socks env u hs).1]

theorem JoinHostPort_no_at {host port : String} (h1 : '@' ∉ host.data) (h2 : '@' ∉ port.data) :
    '@' ∉ (net.JoinHostPort host port).data := by
  unfold net.JoinHostPort
  split <;> simp [String.data_append, h1, h2]

/-- After a call that returned absent nothing is stored, and the next call runs
transport selection on the descriptor left behind. -/
theorem Exchange_after_failure (c : RemoteClient) :
    ∀ (env : Env) (isLog : Bool), (Exchange env c isLog).ret = none →
      (Exchange env c isLog).client.responseMessage = none ∧
      ∀ u', (Exchange env c isLog).client.dnsUpstream = some u' →
        ∀ (env2 : Env) (isLog2 : Bool),
          transportEvents (Exchange env2 (Exchange env c isLog).client isLog2).trace
            = transportEvents (connect env2 u').trace ∧
          (u'.SOCKS5Address = "" → u'.Protocol ≠ "tcp-tls" →
            transportEvents (Exchange env2 (Exchange env c isLog).client isLog2).trace
              = [.netDial u'.Protocol u'.Address]) := by
  intro env isLog hret
  have hst : (Exchange env c isLog).client.responseMessage = none := by
    rw [Exchange_stored, hret]
  refine ⟨hst, ?_⟩
  intro u' hu' env2 isLog2
  have h := Exchange_transportEvents env2 (Exchange env c isLog).client isLog2 u' hst hu'
  refine ⟨h, ?_⟩
  intro hs hp
  rw [h]
  exact (connect_plain env2 u' hs hp).2

/-! ## The claims -/

/-- C1, as stated, fails: for the address `"proxyHost:1111@realHost:2222"` the
address handed to the TLS dial is `"[realHost:2222]:1111"` (the whole second
segment, bracketed because it has a colon), not `"realHost:1111"`. -/
theorem C1_counterexample :
    tlsDials (Exchange envUp (sampleClient "tcp-tls" "proxyHost:1111@realHost:2222" "" 3) true).trace
      = [("[realHost:2222]:1111", "proxyHost")] ∧
    tlsDials (Exchange envUp (sampleClient "tcp-tls" "proxyHost:1111@realHost:2222" "" 3) true).trace
      ≠ [("realHost:1111", "proxyHost")] := by
  decide

/-- C1 (amended): in `Exchange` with no SOCKS5 address and protocol `"tcp-tls"`,
for every address `proxyHost:proxyPort@rest` (proxyHost without `:`, `@`, `[`,
`]`; numeric port; `rest` without `@`) exactly one TLS dial is made, its
ServerName is `proxyHost` and its address is `net.JoinHostPort rest proxyPort`:
that is `rest:proxyPort` when `rest` is a bare host, and `[rest]:proxyPort`
when `rest` has a colon, as in `realHost:realPort`. -/
theorem C1_tls_combined_address (env : Env) (c : RemoteClient) (isLog : Bool) (u : DNSUpstream)
    (proxyHost proxyPort rest : String)
    (hresp : c.responseMessage = none) (hu : c.dnsUpstream = some u)
    (hs : u.SOCKS5Address = "") (hp : u.Protocol = "tcp-tls")
    (ha : u.Address = proxyHost ++ ":" ++ proxyPort ++ "@" ++ rest)
    (hhost : ∀ ch ∈ proxyHost.data, ch ≠ ':' ∧ ch ≠ '@' ∧ ch ≠ '[' ∧ ch ≠ ']')
    (hport : ∀ ch ∈ proxyPort.data, ch.isDigit = true)
    (hrest : '@' ∉ rest.data) :
    tlsDials (Exchange env c isLog).trace = [(net.JoinHostPort rest proxyPort, proxyHost)] ∧
    (':' ∉ rest.data → net.JoinHostPort rest proxyPort = rest ++ ":" ++ proxyPort) ∧
    (':' ∈ rest.data → net.JoinHostPort rest proxyPort = "[" ++ rest ++ "]:" ++ proxyPort) := by
  refine ⟨?_, ?_, ?_⟩
  · have hsplit : strings.Split u.Address '@' = [proxyHost ++ ":" ++ proxyPort, rest] := by
      have h1 : ('@' : Char) ∉ proxyHost.data ++ ':' :: proxyPort.data := by
        simp only [List.mem_append, List.mem_cons, not_or]
        exact ⟨fun h => (hhost _ h).2.1 rfl, by decide, fun h => (isDigit_ne (hport _ h)).2.1 rfl⟩
      have h2 : u.Address.data = (proxyHost.data ++ ':' :: proxyPort.data) ++ '@' :: rest.data := by
        rw [ha]; simp [String.data_append]
      simp only [strings.Split, h2, splitChars_append _ _ h1, splitChars_of_not_mem hrest,
        List.map_cons, List.map_nil]
      simp [String.ext_iff, String.data_append]
    have hparse : net.SplitHostPort (proxyHost ++ ":" ++ proxyPort) = .ok (proxyHost, proxyPort) := by
      have := SplitHostPort_of_parts proxyHost.data proxyPort.data
        (fun h => (hhost _ h).1 rfl) (fun h => (hhost _ h).2.2.1 rfl)
        (fun h => (hhost _ h).2.2.2 rfl)
        (fun h => (isDigit_ne (hport _ h)).1 rfl) (fun h => (isDigit_ne (hport _ h)).2.2.1 rfl)
        (fun h => (isDigit_ne (hport _ h)).2.2.2 rfl)
      have e : proxyHost ++ ":" ++ proxyPort = String.mk (proxyHost.data ++ ':' :: proxyPort.data) := by
        simp [String.ext_iff, String.data_append]
      rw [e, this]
    rw [Exchange_tlsDials env c isLog u hresp hu]
    exact (connect_tls_split env u _ _ _ _ hs hp hsplit hparse).2.1
  · intro h
    simp [net.JoinHostPort, indexByte_eq_none.mpr h]
  · intro h
    simp [net.JoinHostPort, indexByte_isSome.mpr h]

/-- C1 (amended), at `"proxyHost:1111@realHost"`: the dial target is
`"realHost:1111"` and the verification name is `"proxyHost"`. -/
theorem C1_tls_combined_address_witness :
    tlsDials (Exchange envUp (sampleClient "tcp-tls" "proxyHost:1111@realHost" "" 3) true).trace
      = [(net.JoinHostPort "realHost" "1111", "proxyHost")] ∧
    net.JoinHostPort "realHost" "1111" = "realHost:1111" :=
  have h := C1_tls_combined_address envUp (sampleClient "tcp-tls" "proxyHost:1111@realHost" "" 3)
    true ⟨"up", "tcp-tls", "proxyHost:1111@realHost", "", 3⟩ "proxyHost" "1111" "realHost"
    rfl rfl rfl rfl (by decide) (by decide) (by decide) (by decide)
  ⟨h.1, h.2.1 (by decide)⟩

/-- C2, as stated, fails: for a `"tcp-tls"` descriptor without SOCKS5 whose
address is `"bad@x"`, the first part does not parse as host:port and
`Exchange` returns before any dial, so no TLS dial is used: the trace is the
warning alone. -/
theorem C2_counterexample :
    transportEvents (Exchange envUp (sampleClient "tcp-tls" "bad@x" "" 3) true).trace = [] ∧
    (Exchange envUp (sampleClient "tcp-tls" "bad@x" "" 3) true).trace =
      [.log .warn
        "Failed to parse DNS-over-TLS upstream address: address bad: missing port in address"] := by
  decide

/-- C2 (amended): on the slow path exactly one branch of transport selection
is taken, by priority, and at most one dial is attempted.  With a SOCKS5
address: the SOCKS5 dialer is set up for `(Protocol, SOCKS5Address)` and,
unless that set-up fails, asked to dial `(Protocol, Address)`; no TLS or plain
dial is made and the descriptor is left untouched.  Otherwise with protocol
`"tcp-tls"`: exactly one `tls.Dial` over `"tcp"` with verification on is made
(of the rewritten address with the parsed ServerName when the address splits
in two, of the address itself with an empty ServerName when it does not),
except that when the address splits in two and its first part does not parse
no transport call is made at all.  Otherwise: exactly one `net.Dial` with the
literal `Protocol` and the unmodified `Address`. -/
theorem C2_transport_priority (env : Env) (c : RemoteClient) (isLog : Bool) (u : DNSUpstream)
    (hresp : c.responseMessage = none) (hu : c.dnsUpstream = some u) :
    (u.SOCKS5Address ≠ "" →
      transportEvents (Exchange env c isLog).trace =
        (if (env.socks5 u.Protocol u.SOCKS5Address).isSome then
          [.socks5 u.Protocol u.SOCKS5Address]
        else
          [.socks5 u.Protocol u.SOCKS5Address,
           .socksDial u.Protocol u.SOCKS5Address u.Protocol u.Address]) ∧
      (Exchange env c isLog).client.dnsUpstream = some u) ∧
    (u.SOCKS5Address = "" → u.Protocol = "tcp-tls" →
      (∀ s0 s1 err, strings.Split u.Address '@' = [s0, s1] →
        net.SplitHostPort s0 = .error err →
        transportEvents (Exchange env c isLog).trace = [] ∧
        (Exchange env c isLog).client.dnsUpstream = some u) ∧
      (∀ s0 s1 servername port, strings.Split u.Address '@' = [s0, s1] →
        net.SplitHostPort s0 = .ok (servername, port) →
        transportEvents (Exchange env c isLog).trace =
          [.tlsDial "tcp" (net.JoinHostPort s1 port) servername false]) ∧
      ((strings.Split u.Address '@').length ≠ 2 →
        transportEvents (Exchange env c isLog).trace = [.tlsDial "tcp" u.Address "" false] ∧
        (Exchange env c isLog).client.dnsUpstream = some u)) ∧
    (u.SOCKS5Address = "" → u.Protocol ≠ "tcp-tls" →
      transportEvents (Exchange env c isLog).trace = [.netDial u.Protocol u.Address] ∧
      (Exchange env c isLog).client.dnsUpstream = some u) ∧
    dialCount (Exchange env c isLog).trace ≤ 1 := by
  rw [Exchange_transportEvents env c isLog u hresp hu, Exchange_dialCount env c isLog u hresp hu,
    Exchange_client_upstream env c isLog u hresp hu]
  refine ⟨?_, ?_, ?_, connect_dialCount_le env u⟩
  · intro hs
    obtain ⟨h1, h2⟩ := connect_socks env u hs
    exact ⟨h2, by rw [h1]⟩
  · intro hs hp
    refine ⟨?_, ?_, ?_⟩
    · intro s0 s1 err hsplit hparse
      rw [connect_tls_bad env u s0 s1 err hs hp hsplit hparse]
      exact ⟨by simp [transportEvents, Event.isTransport], rfl⟩
    · intro s0 s1 servername port hsplit hparse
      exact (connect_tls_split env u s0 s1 servername port hs hp hsplit hparse).2.2
    · intro hlen
      obtain ⟨h1, _, h3⟩ := connect_tls_whole env u hs hp hlen
      exact ⟨h3, by rw [h1]⟩
  · intro hs hp
    obtain ⟨h1, h2⟩ := connect_plain env u hs hp
    exact ⟨h2, by rw [h1]⟩

/-- C2 (amended) on the three branches: a TLS upstream behind SOCKS5 is reached
through the proxy only; a TLS upstream with a combined address gets one
`tls.Dial`; a plain UDP upstream gets one `net.Dial` and keeps its descriptor. -/
theorem C2_transport_priority_witness :
    transportEvents
        (Exchange envUp (sampleClient "tcp-tls" "192.0.2.1:853" "127.0.0.1:1080" 3) true).trace
      = [.socks5 "tcp-tls" "127.0.0.1:1080",
         .socksDial "tcp-tls" "127.0.0.1:1080" "tcp-tls" "192.0.2.1:853"] ∧
    transportEvents
        (Exchange envUp (sampleClient "tcp-tls" "dns.example:853@192.0.2.1" "" 3) true).trace
      = [.tlsDial "tcp" (net.JoinHostPort "192.0.2.1" "853") "dns.example" false] ∧
    transportEvents (Exchange envUp (sampleClient "udp" "8.8.8.8:53" "" 3) true).trace
      = [.netDial "udp" "8.8.8.8:53"] ∧
    (Exchange envUp (sampleClient "udp" "8.8.8.8:53" "" 3) true).client.dnsUpstream
      = some ⟨"up", "udp", "8.8.8.8:53", "", 3⟩ :=
  ⟨((C2_transport_priority envUp (sampleClient "tcp-tls" "192.0.2.1:853" "127.0.0.1:1080" 3) true
      ⟨"up", "tcp-tls", "192.0.2.1:853", "127.0.0.1:1080", 3⟩ rfl rfl).1 (by decide)).1.trans
      (by decide),
   ((C2_transport_priority envUp (sampleClient "tcp-tls" "dns.example:853@192.0.2.1" "" 3) true
      ⟨"up", "tcp-tls", "dns.example:853@192.0.2.1", "", 3⟩ rfl rfl).2.1 rfl rfl).2.1
      "dns.example:853" "192.0.2.1" "dns.example" "853" (by decide) (by decide),
   (C2_transport_priority envUp (sampleClient "udp" "8.8.8.8:53" "" 3) true
      ⟨"up", "udp", "8.8.8.8:53", "", 3⟩ rfl rfl).2.2.1 rfl (by decide)⟩

/-- C3, as stated, fails: on a fresh client whose upstream refuses the
connection, the first call returns absent after one dial attempt and the second
call dials again. -/
theorem C3_counterexample :
    (runCalls (sampleClient "udp" "8.8.8.8:53" "" 3) [(envDown, false), (envDown, false)]).map
      (fun r => (r.ret, r.trace.filter Event.isDial))
      = [(none, [.netDial "udp" "8.8.8.8:53"]), (none, [.netDial "udp" "8.8.8.8:53"])] := by
  decide

/-- C3 (amended): in every sequence of `Exchange` calls on one instance, each
call makes at most one dial attempt; once a call has returned a present
response, every later call performs no operation at all and returns that
response; so at most one call both touches the network and returns a response.
A call that returned absent leaves the stored response absent, so the next
call on the instance does not take the fast path: it runs transport selection
again on the descriptor as the failed call left it, and for a descriptor
without SOCKS5 and with a protocol other than `"tcp-tls"` that is exactly one
`net.Dial` again. -/
theorem C3_single_successful_exchange (c : RemoteClient) (calls : List (Env × Bool)) :
    (∀ r ∈ runCalls c calls, dialCount r.trace ≤ 1) ∧
    List.Pairwise (fun r1 r2 => r1.ret ≠ none → r2.trace = [] ∧ r2.ret = r1.ret)
      (runCalls c calls) ∧
    ((runCalls c calls).filter (fun r => r.ret.isSome && !r.trace.isEmpty)).length ≤ 1 ∧
    (∀ (env : Env) (isLog : Bool), (Exchange env c isLog).ret = none →
      (Exchange env c isLog).client.responseMessage = none ∧
      ∀ u', (Exchange env c isLog).client.dnsUpstream = some u' →
        ∀ (env2 : Env) (isLog2 : Bool),
          transportEvents (Exchange env2 (Exchange env c isLog).client isLog2).trace
            = transportEvents (connect env2 u').trace ∧
          (u'.SOCKS5Address = "" → u'.Protocol ≠ "tcp-tls" →
            transportEvents (Exchange env2 (Exchange env c isLog).client isLog2).trace
              = [.netDial u'.Protocol u'.Address])) := by
  induction calls generalizing c with
  | nil =>
    exact ⟨by simp [runCalls], by simp [runCalls], by simp [runCalls],
      Exchange_after_failure c⟩
  | cons x rest ih =>
    obtain ⟨env, isLog⟩ := x
    obtain ⟨ih1, ih2, ih3, _⟩ := ih (Exchange env c isLog).client
    have later : ∀ m, (Exchange env c isLog).ret = some m →
        ∀ r2 ∈ runCalls (Exchange env c isLog).client rest, r2.trace = [] ∧ r2.ret = some m := by
      intro m hm r2 hr2
      have hst : (Exchange env c isLog).client.responseMessage = some m := by
        rw [Exchange_stored, hm]
      rw [runCalls_memo _ m hst rest] at hr2
      rw [List.eq_of_mem_replicate hr2]
      exact ⟨rfl, rfl⟩
    refine ⟨?_, ?_, ?_, Exchange_after_failure c⟩
    · intro r hr
      simp only [runCalls, List.mem_cons] at hr
      rcases hr with rfl | hr
      · exact Exchange_dialCount_le env c isLog
      · exact ih1 r hr
    · simp only [runCalls, List.pairwise_cons]
      refine ⟨?_, ih2⟩
      intro r2 hr2 hne
      obtain ⟨m, hm⟩ := Option.ne_none_iff_exists'.mp hne
      rw [hm]
      exact later m hm r2 hr2
    · simp only [runCalls, List.filter_cons]
      cases hret : (Exchange env c isLog).ret with
      | none => simpa using ih3
      | some m =>
        have hnil : (runCalls (Exchange env c isLog).client rest).filter
            (fun r => r.ret.isSome && !r.trace.isEmpty) = [] := by
          rw [List.filter_eq_nil_iff]
          intro r2 hr2
          simp [(later m hret r2 hr2).1]
        rw [hnil]
        split <;> simp

/-- C3 (amended) on a UDP upstream that refuses the connection: the failed call
stores nothing and the next call makes the same `net.Dial` again. -/
theorem C3_single_successful_exchange_witness :
    (Exchange envDown (sampleClient "udp" "8.8.8.8:53" "" 3) false).client.responseMessage
      = none ∧
    transportEvents (Exchange envDown
        (Exchange envDown (sampleClient "udp" "8.8.8.8:53" "" 3) false).client true).trace
      = [.netDial "udp" "8.8.8.8:53"] :=
  have h := (C3_single_successful_exchange (sampleClient "udp" "8.8.8.8:53" "" 3)
    [(envDown, false), (envDown, true)]).2.2.2 envDown false (by decide)
  ⟨h.1, ((h.2 ⟨"up", "udp", "8.8.8.8:53", "", 3⟩ (by decide) envDown true).2 rfl (by decide))⟩

/-- C4: once a call of `Exchange` has returned a present response `r`, every
later call on the instance, whatever its logging flag and whatever the outside
world would answer, returns `r`, makes no call at all (no dial, deadline,
write, read, close or log line) and leaves the instance, its stored response
and the descriptor as they were. -/
theorem C4_memoised_response (env : Env) (c : RemoteClient) (isLog : Bool) (r : Msg)
    (h : (Exchange env c isLog).ret = some r) (calls : List (Env × Bool)) :
    (Exchange env c isLog).client.responseMessage = some r ∧
    runCalls (Exchange env c isLog).client calls =
      List.replicate calls.length ⟨some r, (Exchange env c isLog).client, [], false⟩ := by
  have hst : (Exchange env c isLog).client.responseMessage = some r := by
    rw [Exchange_stored, h]
  exact ⟨hst, runCalls_memo _ r hst calls⟩

/-- C4 on a UDP upstream: after a successful first call, a logging call against
a dead network and a silent call both return the stored response untouched. -/
theorem C4_memoised_response_witness :
    (Exchange envUp (sampleClient "udp" "8.8.8.8:53" "" 3) false).ret
      = some ⟨1, [⟨"example.com. 60 IN A 192.0.2.1"⟩, ⟨"example.com. 60 IN A 192.0.2.2"⟩]⟩ ∧
    runCalls (Exchange envUp (sampleClient "udp" "8.8.8.8:53" "" 3) false).client
        [(envDown, true), (envUp, false)] =
      List.replicate 2
        ⟨some ⟨1, [⟨"example.com. 60 IN A 192.0.2.1"⟩, ⟨"example.com. 60 IN A 192.0.2.2"⟩]⟩,
          (Exchange envUp (sampleClient "udp" "8.8.8.8:53" "" 3) false).client, [], false⟩ :=
  ⟨by decide, (C4_memoised_response envUp (sampleClient "udp" "8.8.8.8:53" "" 3) false
    ⟨1, [⟨"example.com. 60 IN A 192.0.2.1"⟩, ⟨"example.com. 60 IN A 192.0.2.2"⟩]⟩ (by decide)
    [(envDown, true), (envUp, false)]).2⟩

/-- C5: for a timeout of `T` seconds with `0 ≤ T` and `T * 10^9` within the
signed 64-bit range, the budget is exactly `⌊T * 10^9 / 3⌋` nanoseconds, and
whenever a connection is established the deadline calls of `Exchange` are
exactly `SetDeadline`, `SetReadDeadline`, `SetWriteDeadline` on it, each with
that budget as its offset from the clock reading. -/
theorem C5_timeout_budget (T : Int) (h0 : 0 ≤ T) (hfit : T * 10 ^ 9 ≤ 2 ^ 63 - 1) :
    dnsTimeout T = T * 10 ^ 9 / 3 ∧
    ∀ (env : Env) (c : RemoteClient) (isLog : Bool) (u : DNSUpstream) (conn : Conn),
      c.responseMessage = none → c.dnsUpstream = some u → u.Timeout = T →
      (connect env u).conn = some conn →
      (Exchange env c isLog).trace.filter Event.isDeadline =
        [.setDeadline conn (env.now 0) (T * 10 ^ 9 / 3),
         .setReadDeadline conn (env.now 1) (T * 10 ^ 9 / 3),
         .setWriteDeadline conn (env.now 2) (T * 10 ^ 9 / 3)] := by
  have hbudget : dnsTimeout T = T * 10 ^ 9 / 3 := by
    unfold dnsTimeout Second
    have e : (1000000000 : Int) = 10 ^ 9 := by norm_num
    rw [e, wrap64_of_range (x := T) (by omega) (by nlinarith),
      wrap64_of_range (x := T * 10 ^ 9) (by nlinarith) (by omega)]
    exact Int.tdiv_eq_ediv (by positivity) (by decide)
  refine ⟨hbudget, ?_⟩
  intro env c isLog u conn hresp hu hT hconn
  obtain ⟨mid, htrace, hmid⟩ := Exchange_trace_shape env c isLog u conn hresp hu hconn
  have h1 : (connect env u).trace.filter Event.isDeadline = [] := by
    rw [List.filter_eq_nil_iff]
    intro e he
    rcases connect_trace_kinds env u e he with h | ⟨line, rfl⟩
    · cases e <;> simp_all [Event.isTransport, Event.isDeadline]
    · simp [Event.isDeadline]
  have h2 : mid.filter Event.isDeadline = [] := by
    rw [List.filter_eq_nil_iff]
    intro e he
    rcases hmid e he with ⟨m, rfl⟩ | rfl | ⟨lv, line, rfl⟩ <;> simp [Event.isDeadline]
  rw [htrace, hT, hbudget]
  simp [List.filter_append, h1, h2, Event.isDeadline]

/-- C5 at `T = 3`: the budget is one second, and it is the offset of all three
deadlines of a successful UDP exchange. -/
theorem C5_timeout_budget_witness :
    dnsTimeout 3 = 1000000000 ∧
    (Exchange envUp (sampleClient "udp" "8.8.8.8:53" "" 3) false).trace.filter Event.isDeadline =
      [.setDeadline 7 0 (3 * 10 ^ 9 / 3), .setReadDeadline 7 0 (3 * 10 ^ 9 / 3),
       .setWriteDeadline 7 0 (3 * 10 ^ 9 / 3)] :=
  ⟨(C5_timeout_budget 3 (by decide) (by decide)).1.trans (by decide),
   (C5_timeout_budget 3 (by decide) (by decide)).2 envUp (sampleClient "udp" "8.8.8.8:53" "" 3)
     false ⟨"up", "udp", "8.8.8.8:53", "", 3⟩ 7 rfl rfl rfl (by decide)⟩

/-- C6: on an instance with a descriptor and no stored response, `Exchange`
never panics and stores exactly what it returns; it returns a present message
`m` if and only if a connection was established, the write succeeded and the
read returned `m` without error, so it returns absent when no connection was
established, when the write fails, when the read returns an error and when
the read yields no message.  No connection is established when the SOCKS5
set-up fails, when the dial through the proxy fails, when the combined TLS
address does not parse, when the one TLS dial the code makes fails (of the
rewritten address under the parsed ServerName, or of the address itself under
the empty ServerName), or when the plain dial fails. -/
theorem C6_failure_returns_absent (env : Env) (c : RemoteClient) (isLog : Bool) (u : DNSUpstream)
    (hresp : c.responseMessage = none) (hu : c.dnsUpstream = some u) :
    (Exchange env c isLog).panicked = false ∧
    (Exchange env c isLog).client.responseMessage = (Exchange env c isLog).ret ∧
    (∀ m, (Exchange env c isLog).ret = some m ↔
      ∃ conn, (connect env u).conn = some conn ∧
        env.writeMsg conn c.questionMessage = none ∧ env.readMsg conn = (some m, none)) ∧
    ((connect env u).conn = none → (Exchange env c isLog).ret = none) ∧
    (∀ conn, (connect env u).conn = some conn →
      (env.writeMsg conn c.questionMessage ≠ none ∨ (env.readMsg conn).2 ≠ none ∨
        (env.readMsg conn).1 = none) →
      (Exchange env c isLog).ret = none) ∧
    (u.SOCKS5Address ≠ "" → (env.socks5 u.Protocol u.SOCKS5Address).isSome = true →
      (connect env u).conn = none) ∧
    (u.SOCKS5Address ≠ "" →
      (∃ e, env.socksDial u.Protocol u.SOCKS5Address u.Protocol u.Address = .error e) →
      (connect env u).conn = none) ∧
    (u.SOCKS5Address = "" → u.Protocol = "tcp-tls" →
      (∃ s0 s1 e, strings.Split u.Address '@' = [s0, s1] ∧ net.SplitHostPort s0 = .error e) →
      (connect env u).conn = none) ∧
    (u.SOCKS5Address = "" → u.Protocol = "tcp-tls" →
      ∀ s0 s1 servername port, strings.Split u.Address '@' = [s0, s1] →
        net.SplitHostPort s0 = .ok (servername, port) →
        (∃ e, env.tlsDial "tcp" (net.JoinHostPort s1 port) servername = .error e) →
        (connect env u).conn = none) ∧
    (u.SOCKS5Address = "" → u.Protocol = "tcp-tls" →
      (strings.Split u.Address '@').length ≠ 2 →
      (∃ e, env.tlsDial "tcp" u.Address "" = .error e) →
      (connect env u).conn = none) ∧
    (u.SOCKS5Address = "" → u.Protocol ≠ "tcp-tls" →
      (∃ e, env.netDial u.Protocol u.Address = .error e) →
      (connect env u).conn = none) := by
  have hiff := Exchange_ret_some_iff env c isLog u hresp hu
  refine ⟨?_, Exchange_stored env c isLog, hiff, ?_, ?_, ?_, ?_, ?_, ?_, ?_, ?_⟩
  · simp only [Exchange, hresp, hu]
    cases (connect env u).conn with
    | none => rfl
    | some conn =>
      simp only
      cases env.writeMsg conn c.questionMessage with
      | some e => rfl
      | none =>
        simp only
        rcases env.readMsg conn with ⟨m, err⟩
        cases m <;> cases err <;> rfl
  · intro hnone
    cases hret : (Exchange env c isLog).ret with
    | none => rfl
    | some m =>
      obtain ⟨conn, hconn, _, _⟩ := (hiff m).mp hret
      rw [hnone] at hconn
      cases hconn
  · intro conn hconn hfail
    cases hret : (Exchange env c isLog).ret with
    | none => rfl
    | some m =>
      obtain ⟨conn', hconn', hw, hr⟩ := (hiff m).mp hret
      rw [hconn] at hconn'
      cases hconn'
      rcases hfail with h | h | h
      · exact absurd hw h
      · rw [hr] at h; exact absurd rfl h
      · rw [hr] at h; cases h
  · intro hs hfail
    simp only [connect, hs, ne_eq, not_false_eq_true, if_true]
    cases h : env.socks5 u.Protocol u.SOCKS5Address with
    | some e => rfl
    | none => simp [h] at hfail
  · rintro hs ⟨e, he⟩
    simp only [connect, hs, ne_eq, not_false_eq_true, if_true, he]
    cases env.socks5 u.Protocol u.SOCKS5Address <;> rfl
  · rintro hs hp ⟨s0, s1, e, hsplit, hparse⟩
    rw [connect_tls_bad env u s0 s1 e hs hp hsplit hparse]
  · rintro hs hp s0 s1 servername port hsplit hparse ⟨e, he⟩
    simp only [connect, hs, hp, hsplit, hparse, he, ne_eq, not_true_eq_false, if_false, if_true]
  · rintro hs hp hlen ⟨e, he⟩
    simp only [connect, hs, hp, ne_eq, not_true_eq_false, if_false, if_true]
    split
    · rename_i h; simp [h] at hlen
    · simp only [he]
  · rintro hs hp ⟨e, he⟩
    simp only [connect, hs, hp, ne_eq, not_true_eq_false, if_false, he]

/-- C6 with a dead network: on a UDP upstream the refused `net.Dial`, and on a
TLS upstream the refused `tls.Dial` of `192.0.2.1:853` under the name
`dns.example`, give no connection, an absent return and nothing stored. -/
theorem C6_failure_returns_absent_witness :
    (Exchange envDown (sampleClient "udp" "8.8.8.8:53" "" 3) true).panicked = false ∧
    (connect envDown ⟨"up", "udp", "8.8.8.8:53", "", 3⟩).conn = none ∧
    (Exchange envDown (sampleClient "udp" "8.8.8.8:53" "" 3) true).client.responseMessage
      = (Exchange envDown (sampleClient "udp" "8.8.8.8:53" "" 3) true).ret ∧
    (Exchange envDown (sampleClient "udp" "8.8.8.8:53" "" 3) true).ret = none ∧
    (connect envDown ⟨"up", "tcp-tls", "dns.example:853@192.0.2.1", "", 3⟩).conn = none ∧
    (Exchange envDown (sampleClient "tcp-tls" "dns.example:853@192.0.2.1" "" 3) true).ret
      = none :=
  have h := C6_failure_returns_absent envDown (sampleClient "udp" "8.8.8.8:53" "" 3) true
    ⟨"up", "udp", "8.8.8.8:53", "", 3⟩ rfl rfl
  have hdown := h.2.2.2.2.2.2.2.2.2.2 rfl (by decide) ⟨"connection refused", rfl⟩
  have t := C6_failure_returns_absent envDown
    (sampleClient "tcp-tls" "dns.example:853@192.0.2.1" "" 3) true
    ⟨"up", "tcp-tls", "dns.example:853@192.0.2.1", "", 3⟩ rfl rfl
  have tdown := t.2.2.2.2.2.2.2.2.1 rfl rfl "dns.example:853" "192.0.2.1" "dns.example" "853"
    (by decide) (by decide) ⟨"connection refused", rfl⟩
  ⟨h.1, hdown, h.2.1, h.2.2.2.1 hdown, tdown, t.2.2.2.1 tdown⟩

/-- C7: when a connection was established, the trace of `Exchange` contains
exactly one close, of that connection, and it is the last call, after the
three deadlines, on every exit (write failure, read failure, absent message,
success); on the fast path, without a descriptor, or when no connection was
established, nothing is closed. -/
theorem C7_close_exactly_once (env : Env) (c : RemoteClient) (isLog : Bool) :
    (∀ u conn, c.responseMessage = none → c.dnsUpstream = some u →
      (connect env u).conn = some conn →
      closes (Exchange env c isLog).trace = [conn] ∧
      (Exchange env c isLog).trace.getLast? = some (.close conn) ∧
      ((Exchange env c isLog).trace.filter Event.isDeadline).length = 3) ∧
    ((c.responseMessage ≠ none ∨ c.dnsUpstream = none ∨
        ∃ u, c.dnsUpstream = some u ∧ (connect env u).conn = none) →
      closes (Exchange env c isLog).trace = []) := by
  constructor
  · intro u conn hresp hu hconn
    obtain ⟨mid, htrace, hmid⟩ := Exchange_trace_shape env c isLog u conn hresp hu hconn
    have h1 : (connect env u).trace.filter Event.isDeadline = [] := by
      rw [List.filter_eq_nil_iff]
      intro e he
      rcases connect_trace_kinds env u e he with h | ⟨line, rfl⟩
      · cases e <;> simp_all [Event.isTransport, Event.isDeadline]
      · simp [Event.isDeadline]
    have h2 : mid.filter Event.isDeadline = [] := by
      rw [List.filter_eq_nil_iff]
      intro e he
      rcases hmid e he with ⟨m, rfl⟩ | rfl | ⟨lv, line, rfl⟩ <;> simp [Event.isDeadline]
    rw [htrace]
    refine ⟨?_, List.getLast?_concat _, ?_⟩
    · simp [closes_append, closes_of_transport (connect_trace_kinds env u), closes_of_mid hmid,
        closes]
    · simp [List.filter_append, h1, h2, Event.isDeadline]
  · intro h
    cases hresp : c.responseMessage with
    | some r => simp [Exchange_fast env c isLog r hresp, closes]
    | none =>
      cases hu : c.dnsUpstream with
      | none => simp [Exchange, hresp, hu, closes]
      | some u =>
        rcases h with h | h | ⟨u', hu', hconn⟩
        · exact absurd hresp h
        · simp [hu] at h
        · rw [hu] at hu'
          cases hu'
          obtain ⟨rest, h1, _, h3⟩ := Exchange_trace_split env c isLog u hresp hu
          rw [h1, h3 hconn, List.append_nil]
          exact closes_of_transport (connect_trace_kinds env u)

/-- C7 on a UDP upstream: a successful exchange closes connection `7` once, as
its last call; a refused dial closes nothing. -/
theorem C7_close_exactly_once_witness :
    (closes (Exchange envUp (sampleClient "udp" "8.8.8.8:53" "" 3) true).trace = [7] ∧
      (Exchange envUp (sampleClient "udp" "8.8.8.8:53" "" 3) true).trace.getLast?
        = some (.close 7) ∧
      ((Exchange envUp (sampleClient "udp" "8.8.8.8:53" "" 3) true).trace.filter
        Event.isDeadline).length = 3) ∧
    closes (Exchange envDown (sampleClient "udp" "8.8.8.8:53" "" 3) true).trace = [] :=
  ⟨(C7_close_exactly_once envUp (sampleClient "udp" "8.8.8.8:53" "" 3) true).1
    ⟨"up", "udp", "8.8.8.8:53", "", 3⟩ 7 rfl rfl (by decide),
   (C7_close_exactly_once envDown (sampleClient "udp" "8.8.8.8:53" "" 3) true).2
    (Or.inr (Or.inr ⟨⟨"up", "udp", "8.8.8.8:53", "", 3⟩, rfl, by decide⟩))⟩

/-- C8: for a successful `Exchange` returning `m`, the log lines of the call
are, with the flag set, exactly one debug line per answer record of `m`, in
order, each `Answer from <upstream name>: <record text>`, hence as many lines
as records; with the flag clear there is none.  `logAnswer` with a non-empty
label emits the same lines with the label in place of the upstream name. -/
theorem C8_answer_log_lines (env : Env) (c : RemoteClient) (isLog : Bool) (u : DNSUpstream)
    (m : Msg) (hresp : c.responseMessage = none) (hu : c.dnsUpstream = some u)
    (hret : (Exchange env c isLog).ret = some m) :
    (Exchange env c isLog).trace.filter Event.isLog =
      (if isLog then
        m.Answer.map (fun a => .log .debug ("Answer from " ++ u.Name ++ ": " ++ a.String))
      else []) ∧
    (isLog = true → ((Exchange env c isLog).trace.filter Event.isLog).length = m.Answer.length) ∧
    (∀ label, label ≠ "" →
      (logAnswer (Exchange env c isLog).client label).trace =
        m.Answer.map (fun a => .log .debug ("Answer from " ++ label ++ ": " ++ a.String)) ∧
      (logAnswer (Exchange env c isLog).client label).panicked = false) := by
  obtain ⟨conn, hconn, hw, hr⟩ := (Exchange_ret_some_iff env c isLog u hresp hu m).mp hret
  obtain ⟨htrace, hclient⟩ := Exchange_success_trace env c isLog u conn m hresp hu hconn hw hr
  have h1 : (connect env u).trace.filter Event.isLog = [] := by
    rw [List.filter_eq_nil_iff]
    intro e he
    have := connect_trace_of_conn env u conn hconn e he
    cases e <;> simp_all [Event.isTransport, Event.isLog]
  have h2 : ∀ name, (answerLines name "" m.Answer).filter Event.isLog =
      m.Answer.map (fun a => .log .debug ("Answer from " ++ name ++ ": " ++ a.String)) := by
    intro name
    simp only [answerLines, ne_eq, not_true_eq_false, if_false]
    rw [List.filter_eq_self]
    intro e he
    simp only [List.mem_map] at he
    obtain ⟨a, _, rfl⟩ := he
    rfl
  have key : (Exchange env c isLog).trace.filter Event.isLog =
      (if isLog then
        m.Answer.map (fun a => .log .debug ("Answer from " ++ u.Name ++ ": " ++ a.String))
      else []) := by
    rw [htrace]
    cases isLog <;> simp [List.filter_append, h1, h2, Event.isLog]
  refine ⟨key, ?_, ?_⟩
  · intro h
    rw [key, h]
    simp
  · intro label hlabel
    rw [hclient]
    simp [logAnswer, answerLines, hlabel]

/-- C8 on a response with two answer records and the flag set: exactly two
lines, each naming the upstream `up`. -/
theorem C8_answer_log_lines_witness :
    (Exchange envUp (sampleClient "udp" "8.8.8.8:53" "" 3) true).trace.filter Event.isLog =
      [.log .debug "Answer from up: example.com. 60 IN A 192.0.2.1",
       .log .debug "Answer from up: example.com. 60 IN A 192.0.2.2"] :=
  ((C8_answer_log_lines envUp (sampleClient "udp" "8.8.8.8:53" "" 3) true
    ⟨"up", "udp", "8.8.8.8:53", "", 3⟩
    ⟨1, [⟨"example.com. 60 IN A 192.0.2.1"⟩, ⟨"example.com. 60 IN A 192.0.2.2"⟩]⟩
    rfl rfl (by decide)).1).trans (by decide)

/-- C9: `Exchange` never changes the descriptor's `Name`, `Protocol`,
`SOCKS5Address` or `Timeout` (nor makes a nil descriptor non-nil), and it
leaves `Address` unchanged unless `SOCKS5Address` is empty, `Protocol` is
`"tcp-tls"`, `Address` has exactly one `@` and the part before the `@` parses
as host:port. -/
theorem C9_descriptor_frame (env : Env) (c : RemoteClient) (isLog : Bool) :
    (c.dnsUpstream = none → (Exchange env c isLog).client.dnsUpstream = none) ∧
    ∀ u, c.dnsUpstream = some u →
      ∃ u', (Exchange env c isLog).client.dnsUpstream = some u' ∧
        u'.Name = u.Name ∧ u'.Protocol = u.Protocol ∧
        u'.SOCKS5Address = u.SOCKS5Address ∧ u'.Timeout = u.Timeout ∧
        (¬ (u.SOCKS5Address = "" ∧ u.Protocol = "tcp-tls" ∧ u.Address.data.count '@' = 1 ∧
            ∃ host port, net.SplitHostPort (String.mk (u.Address.data.takeWhile (· ≠ '@')))
              = .ok (host, port)) →
          u'.Address = u.Address) := by
  constructor
  · intro hu
    cases hresp : c.responseMessage with
    | some r => rw [Exchange_fast env c isLog r hresp]; exact hu
    | none => simp [Exchange, hresp, hu]
  · intro u hu
    cases hresp : c.responseMessage with
    | some r =>
      rw [Exchange_fast env c isLog r hresp]
      exact ⟨u, hu, rfl, rfl, rfl, rfl, fun _ => rfl⟩
    | none =>
      obtain ⟨h1, h2, h3, h4⟩ := connect_frame env u
      exact ⟨_, Exchange_client_upstream env c isLog u hresp hu, h1, h2, h3, h4,
        connect_address env u⟩

/-- C9 on a TLS upstream whose address has two `@`: the descriptor is as before. -/
theorem C9_descriptor_frame_witness :
    ∃ u', (Exchange envUp (sampleClient "tcp-tls" "a:1@b@c" "" 3) true).client.dnsUpstream
        = some u' ∧
      u'.Name = "up" ∧ u'.Protocol = "tcp-tls" ∧ u'.SOCKS5Address = "" ∧ u'.Timeout = 3 ∧
      u'.Address = "a:1@b@c" :=
  have ⟨u', h, h1, h2, h3, h4, h5⟩ :=
    (C9_descriptor_frame envUp (sampleClient "tcp-tls" "a:1@b@c" "" 3) true).2
      ⟨"up", "tcp-tls", "a:1@b@c", "", 3⟩ rfl
  ⟨u', h, h1, h2, h3, h4, h5 (fun hc => absurd hc.2.2.1 (by decide))⟩

/-- C10, as stated, fails: the address `":853@192.0.2.1"` has one `@` and its
first part parses (as host `""`, port `"853"`), yet the first call and a retry
after the refused dial hand the same pair `("192.0.2.1:853", "")` to
`tls.Dial`: here the rewrite does not change the (dial target, ServerName)
pair. -/
theorem C10_counterexample :
    strings.Split ":853@192.0.2.1" '@' = [":853", "192.0.2.1"] ∧
    net.SplitHostPort ":853" = .ok ("", "853") ∧
    tlsDials (Exchange envDown (sampleClient "tcp-tls" ":853@192.0.2.1" "" 3) false).trace
      = [("192.0.2.1:853", "")] ∧
    tlsDials (Exchange envDown
      (Exchange envDown (sampleClient "tcp-tls" ":853@192.0.2.1" "" 3) false).client
      false).trace
      = tlsDials (Exchange envDown (sampleClient "tcp-tls" ":853@192.0.2.1" "" 3) false).trace := by
  decide

/-- C10 (amended): for a `"tcp-tls"` descriptor without SOCKS5 whose address
splits at a single `@` into `s0`, `s1` with `s0` parsing as
`(servername, port)`, the first `Exchange` dials
`(JoinHostPort s1 port, servername)` and writes back `JoinHostPort s1 port`,
which has no `@`.  Any later `Exchange` that reaches transport selection with
that descriptor (same instance after a failure, or another instance) dials
that address verbatim with an empty ServerName and leaves the descriptor
alone.  So the second `(dial target, ServerName)` pair differs from the first
exactly when `servername` is non-empty, and coincides with it when
`servername` is empty. -/
theorem C10_rewrite_not_idempotent (env : Env) (c : RemoteClient) (isLog : Bool)
    (u : DNSUpstream) (s0 s1 servername port : String)
    (hresp : c.responseMessage = none) (hu : c.dnsUpstream = some u)
    (hs : u.SOCKS5Address = "") (hp : u.Protocol = "tcp-tls")
    (hsplit : strings.Split u.Address '@' = [s0, s1])
    (hparse : net.SplitHostPort s0 = .ok (servername, port)) :
    (Exchange env c isLog).client.dnsUpstream
      = some { u with Address := net.JoinHostPort s1 port } ∧
    '@' ∉ (net.JoinHostPort s1 port).data ∧
    tlsDials (Exchange env c isLog).trace = [(net.JoinHostPort s1 port, servername)] ∧
    ∀ (env2 : Env) (c2 : RemoteClient) (isLog2 : Bool),
      c2.responseMessage = none →
      c2.dnsUpstream = (Exchange env c isLog).client.dnsUpstream →
      tlsDials (Exchange env2 c2 isLog2).trace = [(net.JoinHostPort s1 port, "")] ∧
      (Exchange env2 c2 isLog2).client.dnsUpstream = c2.dnsUpstream ∧
      (servername ≠ "" →
        tlsDials (Exchange env2 c2 isLog2).trace ≠ tlsDials (Exchange env c isLog).trace) ∧
      (servername = "" →
        tlsDials (Exchange env2 c2 isLog2).trace = tlsDials (Exchange env c isLog).trace) := by
  obtain ⟨hup, hdial, _⟩ := connect_tls_split env u s0 s1 servername port hs hp hsplit hparse
  have hclient : (Exchange env c isLog).client.dnsUpstream
      = some { u with Address := net.JoinHostPort s1 port } := by
    rw [Exchange_client_upstream env c isLog u hresp hu, hup]
  have hat : '@' ∉ (net.JoinHostPort s1 port).data := by
    have h0 : '@' ∉ s0.data := Split_part_no_sep (by rw [hsplit]; simp)
    have h1 : '@' ∉ s1.data := Split_part_no_sep (by rw [hsplit]; simp)
    exact JoinHostPort_no_at h1 (fun h => h0 (SplitHostPort_port_mem hparse _ h))
  have hfirst : tlsDials (Exchange env c isLog).trace = [(net.JoinHostPort s1 port, servername)] := by
    rw [Exchange_tlsDials env c isLog u hresp hu, hdial]
  refine ⟨hclient, hat, hfirst, ?_⟩
  intro env2 c2 isLog2 hresp2 hu2
  rw [hclient] at hu2
  have hlen : (strings.Split ({ u with Address := net.JoinHostPort s1 port } : DNSUpstream).Address
      '@').length ≠ 2 := by
    simp [strings.Split, splitChars_of_not_mem hat]
  obtain ⟨hup2, hdial2, _⟩ := connect_tls_whole env2
    { u with Address := net.JoinHostPort s1 port } hs hp hlen
  have hsecond : tlsDials (Exchange env2 c2 isLog2).trace = [(net.JoinHostPort s1 port, "")] := by
    rw [Exchange_tlsDials env2 c2 isLog2 _ hresp2 hu2, hdial2]
  refine ⟨hsecond, ?_, ?_, ?_⟩
  · rw [Exchange_client_upstream env2 c2 isLog2 _ hresp2 hu2, hup2, hu2]
  · intro hne heq
    rw [hsecond, hfirst] at heq
    simp only [List.cons.injEq, Prod.mk.injEq, and_true, true_and] at heq
    exact hne heq.symm
  · intro he
    rw [hsecond, hfirst, he]

/-- C10 (amended) at `"dns.example:853@192.0.2.1"`: the first call dials
`192.0.2.1:853` verifying `dns.example` and stores `192.0.2.1:853`; a retry
after the refused dial targets the same address with an empty verification
name, a different pair. -/
theorem C10_rewrite_not_idempotent_witness :
    tlsDials (Exchange envDown (sampleClient "tcp-tls" "dns.example:853@192.0.2.1" "" 3) false).trace
      = [(net.JoinHostPort "192.0.2.1" "853", "dns.example")] ∧
    tlsDials (Exchange envUp
      (Exchange envDown (sampleClient "tcp-tls" "dns.example:853@192.0.2.1" "" 3) false).client
      false).trace = [(net.JoinHostPort "192.0.2.1" "853", "")] ∧
    tlsDials (Exchange envUp
      (Exchange envDown (sampleClient "tcp-tls" "dns.example:853@192.0.2.1" "" 3) false).client
      false).trace
      ≠ tlsDials
        (Exchange envDown (sampleClient "tcp-tls" "dns.example:853@192.0.2.1" "" 3) false).trace ∧
    net.JoinHostPort "192.0.2.1" "853" = "192.0.2.1:853" :=
  have h := C10_rewrite_not_idempotent envDown
    (sampleClient "tcp-tls" "dns.example:853@192.0.2.1" "" 3) false
    ⟨"up", "tcp-tls", "dns.example:853@192.0.2.1", "", 3⟩
    "dns.example:853" "192.0.2.1" "dns.example" "853" rfl rfl rfl rfl (by decide) (by decide)
  have h2 := h.2.2.2 envUp
    (Exchange envDown (sampleClient "tcp-tls" "dns.example:853@192.0.2.1" "" 3) false).client
    false (by decide) rfl
  ⟨h.2.2.1, h2.1, h2.2.2.1 (by decide), by decide⟩

end SmartDNS
